import Mathlib

/-!
Verification of the localflare binding-sharing sidecar subsystem.

The development shallowly embeds three areas of the repository:

* the Config Synthesizer contract (the `shadow-config` module, whose
  implementation is only available through its callers and the spec);
* the sidecar worker's catch-all proxy handler and health endpoint
  (the Hono worker entry, `src/unnamed/part_000`);
* the CLI process supervisor (config detection, readiness detection,
  noise filtering, and exit-code propagation in
  `src/packages/dashboard/src/App.tsx`, CLI portion).
-/

namespace Localflare

/-! ## Data model: binding declarations and manifests (spec section 3) -/

/-- The binding kinds of the data model: the seven source kinds
(storage database, key-value, object bucket, stateful object class,
queue producer, queue consumer, plain variable) plus the
service-reference kind that only a synthesized companion manifest owns. -/
inductive BindingKind where
  | storageDb
  | kv
  | objectBucket
  | statefulObjectClass
  | queueProducer
  | queueConsumer
  | var
  | serviceReference
deriving DecidableEq, Repr

/-- A single binding declaration: symbolic name, kind, and the identifier
by which the host runtime locates the concrete resource. -/
structure BindingDeclaration where
  kind : BindingKind
  bindingName : String
  resourceIdentifier : String
deriving DecidableEq, Repr

/-- A resource manifest: process name plus its ordered binding declarations. -/
structure ResourceManifest where
  name : String
  bindings : List BindingDeclaration
deriving DecidableEq, Repr

/-- A source manifest is well formed when its binding names are pairwise
distinct (the uniqueness invariant of the data model) and none of its
declarations uses the companion-only service-reference kind. -/
def ResourceManifest.wf (m : ResourceManifest) : Prop :=
  (m.bindings.map BindingDeclaration.bindingName).Nodup ∧
  ∀ b ∈ m.bindings, b.kind ≠ BindingKind.serviceReference

instance (m : ResourceManifest) : Decidable m.wf := by
  unfold ResourceManifest.wf; infer_instance

/-- Modelled from the spec: the Config Synthesizer (`setupLocalflareDir` in
`shadow-config.ts` is not among the provided sources; only its call sites
are). Per the contract it copies every non-variable declaration verbatim,
drops plain variables, and, when `isPrimary` is true, adds one
service-reference binding (the `USER_WORKER` binding the proxy handler
reads) pointing at the source process. -/
def synthesize (source : ResourceManifest) (isPrimary : Bool) : ResourceManifest :=
  let copied := source.bindings.filter (fun b => decide (b.kind ≠ BindingKind.var))
  let extra :=
    if isPrimary then
      [{ kind := BindingKind.serviceReference
         bindingName := "USER_WORKER"
         resourceIdentifier := source.name : BindingDeclaration }]
    else []
  { name := source.name ++ "-localflare-api", bindings := copied ++ extra }

/-- Exact agreement of two declarations on the three fields the
identifier-sharing invariant speaks about. -/
def matchesDecl (b d : BindingDeclaration) : Bool :=
  decide (d.bindingName = b.bindingName ∧ d.kind = b.kind ∧
    d.resourceIdentifier = b.resourceIdentifier)

lemma matchesDecl_self (b : BindingDeclaration) : matchesDecl b b = true := by
  simp [matchesDecl]

lemma matchesDecl_eq_of_true {b d : BindingDeclaration}
    (h : matchesDecl b d = true) :
    d.bindingName = b.bindingName ∧ d.kind = b.kind ∧
      d.resourceIdentifier = b.resourceIdentifier := by
  simpa [matchesDecl] using h

/-- In a list with pairwise-distinct binding names, the number of
declarations agreeing with a member `b` on name, kind and identifier
is exactly one. -/
lemma countP_matches_of_nodup (l : List BindingDeclaration)
    (hnd : (l.map BindingDeclaration.bindingName).Nodup)
    (b : BindingDeclaration) (hb : b ∈ l) :
    l.countP (matchesDecl b) = 1 := by
  induction l with
  | nil => cases hb
  | cons a t ih =>
    rw [List.map_cons, List.nodup_cons] at hnd
    rcases List.mem_cons.mp hb with hba | hbt
    · subst hba
      have ht : t.countP (matchesDecl b) = 0 := by
        rw [List.countP_eq_zero]
        intro d hd hmatch
        exact hnd.1 (by
          rw [← (matchesDecl_eq_of_true hmatch).1]
          exact List.mem_map_of_mem BindingDeclaration.bindingName hd)
      simp [List.countP_cons, matchesDecl_self, ht]
    · have ha : matchesDecl b a = false := by
        by_contra hcon
        have htrue : matchesDecl b a = true := by
          cases hma : matchesDecl b a
          · exact absurd hma hcon
          · rfl
        have hnames := (matchesDecl_eq_of_true htrue).1
        exact hnd.1 (by
          rw [hnames]
          exact List.mem_map_of_mem BindingDeclaration.bindingName hbt)
      rw [List.countP_cons, ha]
      simpa using ih hnd.2 hbt

/-- C1: for every well-formed source manifest and every non-variable
declaration in it with bindingName `X`, kind `K`, resourceIdentifier `R`,
the synthesized companion manifest contains exactly one declaration with
that name, kind and identifier (in both primary and attach synthesis). -/
theorem synthesize_identifier_sharing
    (src : ResourceManifest) (isPrimary : Bool) (b : BindingDeclaration)
    (hwf : src.wf) (hb : b ∈ src.bindings) (hk : b.kind ≠ BindingKind.var) :
    ((synthesize src isPrimary).bindings.countP (matchesDecl b)) = 1 := by
  unfold synthesize
  rw [List.countP_append]
  have hextra :
      (if isPrimary then
        [{ kind := BindingKind.serviceReference
           bindingName := "USER_WORKER"
           resourceIdentifier := src.name : BindingDeclaration }]
      else ([] : List BindingDeclaration)).countP (matchesDecl b) = 0 := by
    cases isPrimary with
    | false => simp
    | true =>
      rw [if_pos rfl, List.countP_eq_zero]
      intro d hd hmatch
      have hkind := (matchesDecl_eq_of_true hmatch).2.1
      have hdk : d.kind = BindingKind.serviceReference := by
        rcases List.mem_singleton.mp hd with rfl
        rfl
      exact hwf.2 b hb (by rw [← hkind, hdk])
  rw [hextra]
  have hfilter : ∀ l : List BindingDeclaration,
      (l.filter (fun d => decide (d.kind ≠ BindingKind.var))).countP
        (matchesDecl b) = l.countP (matchesDecl b) := by
    intro l
    induction l with
    | nil => rfl
    | cons a t ih =>
      by_cases hak : a.kind = BindingKind.var
      · have hma : matchesDecl b a = false := by
          by_contra hcon
          have htrue : matchesDecl b a = true := by
            cases hv : matchesDecl b a
            · exact absurd hv hcon
            · rfl
          exact hk (by rw [← (matchesDecl_eq_of_true htrue).2.1, hak])
        rw [List.filter_cons_of_neg (by simpa using hak),
          List.countP_cons, hma, ih]
        simp
      · rw [List.filter_cons_of_pos (by simpa using hak),
          List.countP_cons, List.countP_cons, ih]
  rw [hfilter, countP_matches_of_nodup src.bindings hwf.1 b hb]

/-- C1 witness: the spec's own example manifest — one storage-db binding
named DB with identifier abc-123 — synthesized in primary mode. -/
theorem synthesize_identifier_sharing_witness :
    (let src : ResourceManifest :=
      { name := "my-worker"
        bindings := [{ kind := BindingKind.storageDb, bindingName := "DB"
                       resourceIdentifier := "abc-123" }] }
     let b : BindingDeclaration :=
      { kind := BindingKind.storageDb, bindingName := "DB"
        resourceIdentifier := "abc-123" }
     ((synthesize src true).bindings.countP (matchesDecl b)) = 1) := by
  exact synthesize_identifier_sharing
    { name := "my-worker"
      bindings := [{ kind := BindingKind.storageDb, bindingName := "DB"
                     resourceIdentifier := "abc-123" }] }
    true
    { kind := BindingKind.storageDb, bindingName := "DB"
      resourceIdentifier := "abc-123" }
    (by decide) (by decide) (by decide)

/-! ## Sidecar worker: requests, responses and the capture stores

The catch-all proxy handler and the health endpoint are embedded from the
Hono worker entry (`src/unnamed/part_000`).  The internals of the two
capture stores (`request-store.ts`) are not among the provided sources, so
the stores are modelled from the spec (sections 3, 4.4, 4.5): bounded
FIFO stores of captured exchanges and log entries. -/

/-- An inbound HTTP request as the worker sees it. -/
structure Request where
  method : String
  path : String
  headers : List (String × String)
  body : String
deriving DecidableEq, Repr

/-- A response body: either raw bytes or a JSON object rendered as an
association list of fields. -/
inductive RespBody where
  | raw (s : String)
  | json (fields : List (String × String))
deriving DecidableEq, Repr

/-- An HTTP response. -/
structure Response where
  status : Nat
  headers : List (String × String)
  body : RespBody
deriving DecidableEq, Repr

/-- Log levels of the Log Capture Store. -/
inductive LogLevel where
  | info
  | warn
  | error
deriving DecidableEq, Repr

/-- The structured context the proxy handler attaches to its error log:
the correlation id of the failed exchange and the error message. -/
structure LogContext where
  requestId : Nat
  errorMessage : String
deriving DecidableEq, Repr

/-- A log entry: level, message, optional context, optional category,
timestamp. -/
structure LogEntry where
  level : LogLevel
  message : String
  context : Option LogContext
  category : Option String
  timestamp : Nat
deriving DecidableEq, Repr

/-- A captured request/response exchange.  Created with only the "in"
fields; the optional "out" fields are filled at completion. -/
structure CapturedExchange where
  id : Nat
  method : String
  path : String
  headersIn : List (String × String)
  startedAt : Nat
  status : Option Nat
  headersOut : Option (List (String × String))
  completedAt : Option Nat
  durationMs : Option Nat
  error : Option String
deriving DecidableEq, Repr

/-- Modelled from the spec: the BoundedOrderedStore insertion of section 3.
Appends the new element; when the store is at (or above) capacity the
oldest entries are evicted first so that at most `cap` elements remain. -/
def boundedAppend {α : Type} (cap : Nat) (l : List α) (a : α) : List α :=
  if cap ≤ l.length then (l ++ [a]).drop (l.length + 1 - cap) else l ++ [a]

/-- Modelled from the spec: the Log Capture Store state (`logStore` in
`request-store.ts`, not among the provided sources): a bounded FIFO list
of log entries, oldest first. -/
structure LogStoreState where
  capacity : Nat
  entries : List LogEntry
deriving Repr

/-- Modelled from the spec: `log(level, message, context?, category?)`
appends a LogEntry, evicting the oldest entry if the store is full. -/
def logStoreLog (s : LogStoreState) (level : LogLevel) (message : String)
    (context : Option LogContext) (category : Option String) (now : Nat) :
    LogStoreState :=
  let e : LogEntry :=
    { level := level, message := message, context := context
      category := category, timestamp := now }
  { s with entries := boundedAppend s.capacity s.entries e }

/-- Modelled from the spec: the Traffic Capture Store state
(`requestStore` in `request-store.ts`, not among the provided sources):
a counter for fresh correlation ids and a bounded FIFO list of captured
exchanges, oldest first. -/
structure RequestStoreState where
  capacity : Nat
  nextId : Nat
  exchanges : List CapturedExchange
deriving Repr

/-- The exchange record as created at proxy-start: only the "in" fields
are populated. -/
def freshExchange (req : Request) (now : Nat) (cid : Nat) : CapturedExchange :=
  { id := cid, method := req.method, path := req.path
    headersIn := req.headers, startedAt := now
    status := none, headersOut := none, completedAt := none
    durationMs := none, error := none }

/-- Modelled from the spec: `startExchange(request) -> correlationId`
records method, path, headers and start time and returns an opaque fresh
id immediately, before any forwarding occurs. -/
def startExchange (s : RequestStoreState) (req : Request) (now : Nat) :
    Nat × RequestStoreState :=
  (s.nextId,
   { s with nextId := s.nextId + 1
            exchanges := boundedAppend s.capacity s.exchanges
              (freshExchange req now s.nextId) })

/-- Modelled from the spec: `completeExchange(correlationId, response,
startTime)` fills status, response headers, completion time and duration
of the matching exchange; a second completion for the same id is rejected
(at-most-once completion, spec section 8). -/
def completeExchange (s : RequestStoreState) (cid : Nat) (resp : Response)
    (startTime now : Nat) : RequestStoreState :=
  { s with exchanges := s.exchanges.map fun ex =>
      if ex.id = cid ∧ ex.completedAt = none then
        { ex with status := some resp.status
                  headersOut := some resp.headers
                  completedAt := some now
                  durationMs := some (now - startTime) }
      else ex }

/-- Lookup of an exchange record by correlation id. -/
def findExchange (s : RequestStoreState) (cid : Nat) : Option CapturedExchange :=
  s.exchanges.find? (fun ex => ex.id == cid)

/-- The worker environment: the optional `USER_WORKER` service-reference
binding, a fetch function that either yields a response or throws with an
error message. -/
structure Env where
  userWorker : Option (Request → Except String Response)

/-- Combined mutable state of the sidecar worker process. -/
structure SidecarState where
  requests : RequestStoreState
  logs : LogStoreState
deriving Repr

/-- Observable actions of one run of the catch-all proxy handler, in
program order. -/
inductive ProxyEvent where
  | startedExchange (id : Nat) (req : Request)
  | forwarded (req : Request)
  | completedExchange (id : Nat) (resp : Response)
  | loggedError (e : LogEntry)
  | responded (resp : Response)
deriving DecidableEq, Repr

/-- The reserved path root of the inspector API. -/
def apiRoot : String := "/__localflare"

/-- Whether `pat` is an initial segment of `s` (the routing test for the
reserved inspector path root). -/
def strStarts (s pat : String) : Bool :=
  s.data.take pat.data.length == pat.data

/-- The catch-all proxy handler of the worker entry, embedded with an
explicit event trace.  With a `USER_WORKER` binding it starts an exchange
capture, forwards the request, and on success completes the capture and
returns the forwarded response; if the forward throws it logs an
error-level entry tagged with the correlation id and returns a generic
500.  Without the binding it returns a 404 explaining that no user worker
is bound.  `now` is the start time, `later` the completion time. -/
def catchAllHandler (env : Env) (st : SidecarState) (req : Request)
    (now later : Nat) : Response × SidecarState × List ProxyEvent :=
  match env.userWorker with
  | some fetchFn =>
    let started := startExchange st.requests req now
    let rid := started.1
    match fetchFn req with
    | Except.ok resp =>
      (resp,
       { st with requests := completeExchange started.2 rid resp now later },
       [ProxyEvent.startedExchange rid req, ProxyEvent.forwarded req,
        ProxyEvent.completedExchange rid resp, ProxyEvent.responded resp])
    | Except.error msg =>
      let entry : LogEntry :=
        { level := LogLevel.error, message := "Request failed: " ++ msg
          context := some { requestId := rid, errorMessage := msg }
          category := some "request", timestamp := later }
      let resp500 : Response :=
        { status := 500, headers := []
          body := RespBody.json [("error", "Worker error"), ("message", msg)] }
      (resp500,
       { st with requests := started.2
                 logs := logStoreLog st.logs LogLevel.error
                   ("Request failed: " ++ msg)
                   (some { requestId := rid, errorMessage := msg })
                   (some "request") later },
       [ProxyEvent.startedExchange rid req, ProxyEvent.forwarded req,
        ProxyEvent.loggedError entry, ProxyEvent.responded resp500])
  | none =>
    ({ status := 404, headers := []
       body := RespBody.json
         [("error", "Not found"),
          ("message", "This route is not handled by Localflare API. User worker not bound.")] },
     st, [ProxyEvent.responded
       { status := 404, headers := []
         body := RespBody.json
           [("error", "Not found"),
            ("message", "This route is not handled by Localflare API. User worker not bound.")] }])

/-- The log entry appended by the health endpoint. -/
def healthEntry (now : Nat) : LogEntry :=
  { level := LogLevel.info, message := "Health check: Localflare API is running"
    context := none, category := some "system", timestamp := now }

/-- The `GET /__localflare/health` handler of the worker entry: logs an
info-level system entry and returns the liveness payload. -/
def healthHandler (logs : LogStoreState) (now : Nat) :
    Response × LogStoreState :=
  ({ status := 200, headers := []
     body := RespBody.json
       [("status", "ok"),
        ("message", "Localflare API is running with shared bindings.")] },
   logStoreLog logs LogLevel.info "Health check: Localflare API is running"
     none (some "system") now)

/-! ## Store lemmas -/

lemma getLast?_append_singleton {α : Type} (l : List α) (a : α) :
    (l ++ [a]).getLast? = some a := by
  induction l with
  | nil => rfl
  | cons x t ih =>
    rw [List.cons_append, List.getLast?_cons, ih]
    cases t <;> rfl

/-- A bounded append with positive capacity always keeps the new element
last, preceded by a (possibly evicted-from) portion of the old list. -/
lemma boundedAppend_decomp {α : Type} (cap : Nat) (l : List α) (a : α)
    (hcap : 0 < cap) :
    ∃ l', boundedAppend cap l a = l' ++ [a] ∧ ∀ x ∈ l', x ∈ l := by
  unfold boundedAppend
  by_cases h : cap ≤ l.length
  · refine ⟨l.drop (l.length + 1 - cap), ?_, ?_⟩
    · rw [if_pos h, List.drop_append_of_le_length (by omega)]
    · intro x hx
      exact List.drop_subset _ l hx
  · exact ⟨l, by rw [if_neg h], fun x hx => hx⟩

lemma boundedAppend_length {α : Type} (cap : Nat) (l : List α) (a : α)
    (hcap : 0 < cap) (hlen : l.length ≤ cap) :
    (boundedAppend cap l a).length = min (l.length + 1) cap := by
  unfold boundedAppend
  by_cases h : cap ≤ l.length
  · rw [if_pos h, List.length_drop, List.length_append]
    simp only [List.length_cons, List.length_nil]
    omega
  · rw [if_neg h, List.length_append]
    simp only [List.length_cons, List.length_nil]
    omega

lemma boundedAppend_getLast? {α : Type} (cap : Nat) (l : List α) (a : α)
    (hcap : 0 < cap) :
    (boundedAppend cap l a).getLast? = some a := by
  obtain ⟨l', heq, -⟩ := boundedAppend_decomp cap l a hcap
  rw [heq, getLast?_append_singleton]

lemma boundedAppend_full {α : Type} (cap : Nat) (l : List α) (a : α)
    (hcap : 0 < cap) (hfull : l.length = cap) :
    boundedAppend cap l a = l.tail ++ [a] := by
  unfold boundedAppend
  rw [if_pos (le_of_eq hfull.symm)]
  have h1 : l.length + 1 - cap = 1 := by omega
  rw [h1, List.drop_append_of_le_length (by omega), List.drop_one]

lemma find?_append_singleton {α : Type} (p : α → Bool) (l : List α) (a : α)
    (hl : ∀ x ∈ l, p x = false) (ha : p a = true) :
    (l ++ [a]).find? p = some a := by
  induction l with
  | nil => simp [List.find?, ha]
  | cons x t ih =>
    rw [List.cons_append, List.find?_cons,
      hl x (List.mem_cons_self x t)]
    exact ih (fun y hy => hl y (List.mem_cons_of_mem x hy))

lemma map_eq_self_of_fix {α : Type} (g : α → α) (l : List α)
    (h : ∀ x ∈ l, g x = x) : l.map g = l := by
  induction l with
  | nil => rfl
  | cons x t ih =>
    rw [List.map_cons, h x (List.mem_cons_self x t),
      ih (fun y hy => h y (List.mem_cons_of_mem x hy))]

/-! ## Claims about the proxy handler and the health endpoint -/

/-- C2: with no `USER_WORKER` service-reference binding configured, the
catch-all proxy handler answers any non-inspector request with a 404
whose body explains that no user process is bound, leaves the sidecar
state untouched, and (being a total function into `Response`) neither
throws nor crashes the sidecar. -/
theorem catchAll_no_user_worker_404
    (env : Env) (st : SidecarState) (req : Request) (now later : Nat)
    (hpath : strStarts req.path apiRoot = false)
    (hnone : env.userWorker = none) :
    (catchAllHandler env st req now later).1 =
      ({ status := 404, headers := []
         body := RespBody.json
           [("error", "Not found"),
            ("message", "This route is not handled by Localflare API. User worker not bound.")] } : Response) ∧
    (catchAllHandler env st req now later).2.1 = st := by
  unfold catchAllHandler
  rw [hnone]
  exact ⟨rfl, rfl⟩

/-- C2 witness: a GET /orders against a sidecar with no user worker. -/
theorem catchAll_no_user_worker_404_witness :
    (catchAllHandler { userWorker := none }
      { requests := { capacity := 100, nextId := 0, exchanges := [] }
        logs := { capacity := 100, entries := [] } }
      { method := "GET", path := "/orders", headers := [], body := "" }
      3 7).1 =
      ({ status := 404, headers := []
         body := RespBody.json
           [("error", "Not found"),
            ("message", "This route is not handled by Localflare API. User worker not bound.")] } : Response) ∧
    (catchAllHandler { userWorker := none }
      { requests := { capacity := 100, nextId := 0, exchanges := [] }
        logs := { capacity := 100, entries := [] } }
      { method := "GET", path := "/orders", headers := [], body := "" }
      3 7).2.1 =
      ({ requests := { capacity := 100, nextId := 0, exchanges := [] }
         logs := { capacity := 100, entries := [] } } : SidecarState) :=
  catchAll_no_user_worker_404 _ _ _ 3 7 (by decide) rfl

/-- C3: when the forward to the user worker throws, the handler appends
an error-level LogEntry whose context carries this request's correlation
id (with category `request`) to the Log Capture Store and answers the
caller with a generic 500; it returns normally rather than re-throwing,
as witnessed by the `responded` event closing the trace. -/
theorem catchAll_forward_failure_logs_and_500
    (env : Env) (st : SidecarState) (req : Request) (now later : Nat)
    (f : Request → Except String Response) (msg : String)
    (huw : env.userWorker = some f)
    (herr : f req = Except.error msg) :
    (catchAllHandler env st req now later).1 =
      ({ status := 500, headers := []
         body := RespBody.json [("error", "Worker error"), ("message", msg)] } : Response) ∧
    (catchAllHandler env st req now later).2.1.logs =
      logStoreLog st.logs LogLevel.error ("Request failed: " ++ msg)
        (some { requestId := st.requests.nextId, errorMessage := msg })
        (some "request") later ∧
    (catchAllHandler env st req now later).2.2 =
      [ProxyEvent.startedExchange st.requests.nextId req,
       ProxyEvent.forwarded req,
       ProxyEvent.loggedError
         { level := LogLevel.error, message := "Request failed: " ++ msg
           context := some { requestId := st.requests.nextId, errorMessage := msg }
           category := some "request", timestamp := later },
       ProxyEvent.responded
         { status := 500, headers := []
           body := RespBody.json [("error", "Worker error"), ("message", msg)] }] := by
  unfold catchAllHandler
  rw [huw]
  simp [herr, startExchange]

/-- C3 witness: a forward that throws `boom` on an empty store. -/
theorem catchAll_forward_failure_logs_and_500_witness :
    (catchAllHandler { userWorker := some fun _ => Except.error "boom" }
      { requests := { capacity := 100, nextId := 0, exchanges := [] }
        logs := { capacity := 100, entries := [] } }
      { method := "GET", path := "/orders", headers := [], body := "" }
      3 7).1 =
      ({ status := 500, headers := []
         body := RespBody.json [("error", "Worker error"), ("message", "boom")] } : Response) ∧
    (catchAllHandler { userWorker := some fun _ => Except.error "boom" }
      { requests := { capacity := 100, nextId := 0, exchanges := [] }
        logs := { capacity := 100, entries := [] } }
      { method := "GET", path := "/orders", headers := [], body := "" }
      3 7).2.1.logs =
      logStoreLog { capacity := 100, entries := [] } LogLevel.error
        ("Request failed: " ++ "boom")
        (some { requestId := 0, errorMessage := "boom" })
        (some "request") 7 ∧
    (catchAllHandler { userWorker := some fun _ => Except.error "boom" }
      { requests := { capacity := 100, nextId := 0, exchanges := [] }
        logs := { capacity := 100, entries := [] } }
      { method := "GET", path := "/orders", headers := [], body := "" }
      3 7).2.2 =
      [ProxyEvent.startedExchange 0
         { method := "GET", path := "/orders", headers := [], body := "" },
       ProxyEvent.forwarded
         { method := "GET", path := "/orders", headers := [], body := "" },
       ProxyEvent.loggedError
         { level := LogLevel.error, message := "Request failed: " ++ "boom"
           context := some { requestId := 0, errorMessage := "boom" }
           category := some "request", timestamp := 7 },
       ProxyEvent.responded
         { status := 500, headers := []
           body := RespBody.json [("error", "Worker error"), ("message", "boom")] }] :=
  catchAll_forward_failure_logs_and_500 _ _ _ 3 7 _ "boom" rfl rfl

/-- C5: on the success path with a `USER_WORKER` binding, the trace shows
the correlation id issued by `startExchange` before the forward, the
request forwarded unchanged, the exchange completed (on the post-start
store, with that same id) after the response resolves, and the forwarded
response returned verbatim to the caller. -/
theorem catchAll_forward_success_roundtrip
    (env : Env) (st : SidecarState) (req : Request) (now later : Nat)
    (f : Request → Except String Response) (resp : Response)
    (huw : env.userWorker = some f)
    (hok : f req = Except.ok resp) :
    (catchAllHandler env st req now later).1 = resp ∧
    (catchAllHandler env st req now later).2.1.requests =
      completeExchange (startExchange st.requests req now).2
        st.requests.nextId resp now later ∧
    (catchAllHandler env st req now later).2.2 =
      [ProxyEvent.startedExchange st.requests.nextId req,
       ProxyEvent.forwarded req,
       ProxyEvent.completedExchange st.requests.nextId resp,
       ProxyEvent.responded resp] := by
  unfold catchAllHandler
  rw [huw]
  simp [hok, startExchange]

/-- C5 witness: a successful forward returning a 201. -/
theorem catchAll_forward_success_roundtrip_witness :
    (catchAllHandler
      { userWorker := some fun _ =>
          Except.ok { status := 201, headers := [], body := RespBody.raw "hi" } }
      { requests := { capacity := 100, nextId := 0, exchanges := [] }
        logs := { capacity := 100, entries := [] } }
      { method := "GET", path := "/orders", headers := [], body := "" }
      3 7).1 =
      ({ status := 201, headers := [], body := RespBody.raw "hi" } : Response) ∧
    (catchAllHandler
      { userWorker := some fun _ =>
          Except.ok { status := 201, headers := [], body := RespBody.raw "hi" } }
      { requests := { capacity := 100, nextId := 0, exchanges := [] }
        logs := { capacity := 100, entries := [] } }
      { method := "GET", path := "/orders", headers := [], body := "" }
      3 7).2.1.requests =
      completeExchange
        (startExchange { capacity := 100, nextId := 0, exchanges := [] }
          { method := "GET", path := "/orders", headers := [], body := "" } 3).2
        0 { status := 201, headers := [], body := RespBody.raw "hi" } 3 7 ∧
    (catchAllHandler
      { userWorker := some fun _ =>
          Except.ok { status := 201, headers := [], body := RespBody.raw "hi" } }
      { requests := { capacity := 100, nextId := 0, exchanges := [] }
        logs := { capacity := 100, entries := [] } }
      { method := "GET", path := "/orders", headers := [], body := "" }
      3 7).2.2 =
      [ProxyEvent.startedExchange 0
         { method := "GET", path := "/orders", headers := [], body := "" },
       ProxyEvent.forwarded
         { method := "GET", path := "/orders", headers := [], body := "" },
       ProxyEvent.completedExchange 0
         { status := 201, headers := [], body := RespBody.raw "hi" },
       ProxyEvent.responded
         { status := 201, headers := [], body := RespBody.raw "hi" }] :=
  catchAll_forward_success_roundtrip _ _ _ 3 7 _ _ rfl rfl

lemma find_fresh_in_boundedAppend (cap n : Nat)
    (exs : List CapturedExchange) (fresh : CapturedExchange)
    (hid : fresh.id = n)
    (hlt : ∀ ex ∈ exs, ex.id < n) (hcap : 0 < cap) :
    (boundedAppend cap exs fresh).find? (fun ex => ex.id == n) = some fresh := by
  obtain ⟨l', heq, hsub⟩ := boundedAppend_decomp cap exs fresh hcap
  rw [heq]
  apply find?_append_singleton
  · intro x hx
    have := hlt x (hsub x hx)
    simp only [beq_eq_false_iff_ne, ne_eq]
    omega
  · simp [hid]

/-- C4 (amended): with a user worker bound, an exchange record is created
at proxy-start with only the "in" fields populated; afterwards it is
mutated at most once — on a successful forward the "out" fields are
filled, while on a failed forward the record is left untouched (in
particular it is never marked `error`). -/
theorem catchAll_exchange_record_lifecycle
    (env : Env) (st : SidecarState) (req : Request) (now later : Nat)
    (f : Request → Except String Response)
    (huw : env.userWorker = some f)
    (hcap : 0 < st.requests.capacity)
    (hids : ∀ ex ∈ st.requests.exchanges, ex.id < st.requests.nextId) :
    (∀ msg, f req = Except.error msg →
      findExchange (catchAllHandler env st req now later).2.1.requests
          st.requests.nextId
        = some (freshExchange req now st.requests.nextId)) ∧
    (∀ resp, f req = Except.ok resp →
      findExchange (catchAllHandler env st req now later).2.1.requests
          st.requests.nextId
        = some { freshExchange req now st.requests.nextId with
            status := some resp.status
            headersOut := some resp.headers
            completedAt := some later
            durationMs := some (later - now) }) := by
  constructor
  · intro msg herr
    unfold catchAllHandler
    rw [huw]
    simp only [herr, startExchange, findExchange]
    exact find_fresh_in_boundedAppend st.requests.capacity st.requests.nextId
      st.requests.exchanges (freshExchange req now st.requests.nextId)
      rfl hids hcap
  · intro resp hok
    unfold catchAllHandler
    rw [huw]
    simp only [hok, startExchange, findExchange, completeExchange]
    obtain ⟨l', heq, hsub⟩ := boundedAppend_decomp st.requests.capacity
      st.requests.exchanges (freshExchange req now st.requests.nextId) hcap
    rw [heq, List.map_append]
    have hfix : l'.map (fun ex =>
        if ex.id = st.requests.nextId ∧ ex.completedAt = none then
          { ex with status := some resp.status
                    headersOut := some resp.headers
                    completedAt := some later
                    durationMs := some (later - now) }
        else ex) = l' := by
      apply map_eq_self_of_fix
      intro x hx
      have := hids x (hsub x hx)
      rw [if_neg]
      intro hcon
      omega
    rw [hfix]
    have hfill : (List.map (fun ex =>
        if ex.id = st.requests.nextId ∧ ex.completedAt = none then
          { ex with status := some resp.status
                    headersOut := some resp.headers
                    completedAt := some later
                    durationMs := some (later - now) }
        else ex) [freshExchange req now st.requests.nextId]) =
        [{ freshExchange req now st.requests.nextId with
            status := some resp.status
            headersOut := some resp.headers
            completedAt := some later
            durationMs := some (later - now) }] := by
      simp [freshExchange]
    rw [hfill]
    apply find?_append_singleton
    · intro x hx
      have := hids x (hsub x hx)
      simp only [beq_eq_false_iff_ne, ne_eq]
      omega
    · simp [freshExchange]

/-- C4 witness: one failed and one successful forward, each on a fresh
store, looked up by their correlation id. -/
theorem catchAll_exchange_record_lifecycle_witness :
    (∀ msg, (fun _ : Request => (Except.error "boom" : Except String Response))
        { method := "GET", path := "/orders", headers := [], body := "" }
        = Except.error msg →
      findExchange (catchAllHandler
          { userWorker := some fun _ => Except.error "boom" }
          { requests := { capacity := 100, nextId := 0, exchanges := [] }
            logs := { capacity := 100, entries := [] } }
          { method := "GET", path := "/orders", headers := [], body := "" }
          3 7).2.1.requests 0
        = some (freshExchange
            { method := "GET", path := "/orders", headers := [], body := "" } 3 0)) ∧
    (∀ resp, (fun _ : Request => (Except.error "boom" : Except String Response))
        { method := "GET", path := "/orders", headers := [], body := "" }
        = Except.ok resp →
      findExchange (catchAllHandler
          { userWorker := some fun _ => Except.error "boom" }
          { requests := { capacity := 100, nextId := 0, exchanges := [] }
            logs := { capacity := 100, entries := [] } }
          { method := "GET", path := "/orders", headers := [], body := "" }
          3 7).2.1.requests 0
        = some { freshExchange
            { method := "GET", path := "/orders", headers := [], body := "" } 3 0 with
            status := some resp.status
            headersOut := some resp.headers
            completedAt := some 7
            durationMs := some (7 - 3) }) :=
  catchAll_exchange_record_lifecycle
    { userWorker := some fun _ => Except.error "boom" }
    { requests := { capacity := 100, nextId := 0, exchanges := [] }
      logs := { capacity := 100, entries := [] } }
    { method := "GET", path := "/orders", headers := [], body := "" }
    3 7 _ rfl (by decide) (by intro ex hex; cases hex)

/-- C4 counterexample: a concrete failed forward after which the captured
exchange record for the request's correlation id still has `error = none`
— the handler never marks the record error, contradicting the claim. -/
theorem catchAll_error_never_marked_counterexample :
    (findExchange (catchAllHandler
        { userWorker := some fun _ => Except.error "boom" }
        { requests := { capacity := 100, nextId := 0, exchanges := [] }
          logs := { capacity := 100, entries := [] } }
        { method := "GET", path := "/orders", headers := [], body := "" }
        3 7).2.1.requests 0).map CapturedExchange.error = some none := by
  decide

/-- C10: every health request returns the ok liveness payload and, as a
side effect, appends exactly one info-level LogEntry with category
`system` to the bounded Log Capture Store — growing it up to capacity and
evicting the oldest entry once full. -/
theorem health_logs_one_system_entry
    (logs : LogStoreState) (now : Nat)
    (hcap : 0 < logs.capacity) (hlen : logs.entries.length ≤ logs.capacity) :
    (healthHandler logs now).1 =
      ({ status := 200, headers := []
         body := RespBody.json
           [("status", "ok"),
            ("message", "Localflare API is running with shared bindings.")] } : Response) ∧
    (healthHandler logs now).2.capacity = logs.capacity ∧
    (healthHandler logs now).2.entries.length
      = min (logs.entries.length + 1) logs.capacity ∧
    (healthHandler logs now).2.entries.getLast? = some (healthEntry now) ∧
    (healthEntry now).level = LogLevel.info ∧
    (healthEntry now).category = some "system" ∧
    (logs.entries.length = logs.capacity →
      (healthHandler logs now).2.entries
        = logs.entries.tail ++ [healthEntry now]) := by
  refine ⟨rfl, rfl, ?_, ?_, rfl, rfl, ?_⟩
  · exact boundedAppend_length logs.capacity logs.entries (healthEntry now)
      hcap hlen
  · exact boundedAppend_getLast? logs.capacity logs.entries (healthEntry now)
      hcap
  · intro hfull
    exact boundedAppend_full logs.capacity logs.entries (healthEntry now)
      hcap hfull

/-- C10 witness: polling health against a full store of capacity one
evicts the old entry and leaves exactly the new system entry. -/
theorem health_logs_one_system_entry_witness :
    (healthHandler { capacity := 1, entries := [healthEntry 0] } 5).2.entries
      = [healthEntry 5] := by
  have h := health_logs_one_system_entry
    { capacity := 1, entries := [healthEntry 0] } 5 (by decide) (by decide)
  simpa using h.2.2.2.2.2.2 rfl

/-! ## Process supervisor (CLI portion of `App.tsx`)

The supervisor's close handlers, setup-failure paths, stdout readiness
detection and console noise filter are embedded directly from the two CLI
commands (primary and attach). -/

/-- Substring occurrence over character lists: some suffix of `l` has
`pat` as an initial segment (the semantics of the JS `includes` test). -/
def listHasSub (pat : List Char) : List Char → Bool
  | [] => pat.isEmpty
  | c :: rest => (pat == (c :: rest).take pat.length) || listHasSub pat rest

/-- Whether `s` contains `pat` as a substring. -/
def containsStr (s pat : String) : Bool := listHasSub pat.data s.data

/-- The primary command's readiness test on a stdout chunk. -/
def isReadyChunkPrimary (s : String) : Bool :=
  containsStr s "Ready" || containsStr s "Listening"

/-- The attach command's readiness test on a stdout chunk. -/
def isReadyChunkAttach (s : String) : Bool :=
  containsStr s "Ready" || containsStr s "has access to the following bindings"

/-- The console fallback's internal-noise test: the inspector's own path
root, binding-wiring diagnostics, and reload chatter. -/
def isLocalflareNoise (output : String) : Bool :=
  containsStr output "/__localflare/" ||
  containsStr output "localflare-api has access" ||
  containsStr output "env.LOCALFLARE_MANIFEST" ||
  containsStr output "env.USER_WORKER" ||
  containsStr output "Reloading local server" ||
  (containsStr output "Binding" && containsStr output "Resource" &&
    containsStr output "Mode")

/-- The supervisor options relevant to stdout handling: whether a TUI was
started, whether verbose output was requested, and whether a browser
should be opened on readiness. -/
structure SupervisorOptions where
  hasTui : Bool
  verbose : Bool
  openBrowser : Bool
deriving DecidableEq, Repr

/-- Observable actions of the stdout data handler. -/
inductive SupEvent where
  | enterRunning
  | openedBrowser
  | wroteChunk (s : String)
  | tuiOutput (s : String)
deriving DecidableEq, Repr

/-- One invocation of the primary command's stdout data handler: latches
`started` on a readiness chunk (showing the success output, marking the
TUI started, optionally opening the browser), then routes the chunk to
the TUI, to the noise-filtered console (once started), or to verbose
passthrough (before started). -/
def primaryStdoutStep (opts : SupervisorOptions) (started : Bool)
    (chunk : String) : Bool × List SupEvent :=
  let fires := !started && isReadyChunkPrimary chunk
  let started2 := started || isReadyChunkPrimary chunk
  let readyEvents :=
    if fires then
      SupEvent.enterRunning ::
        (if opts.openBrowser then [SupEvent.openedBrowser] else [])
    else []
  let routeEvents :=
    if opts.hasTui then [SupEvent.tuiOutput chunk]
    else if started2 then
      (if isLocalflareNoise chunk then [] else [SupEvent.wroteChunk chunk])
    else if opts.verbose then [SupEvent.wroteChunk chunk]
    else []
  (started2, readyEvents ++ routeEvents)

/-- One invocation of the attach command's stdout data handler: only the
readiness latch (success output and optional browser open); chunks are
not routed anywhere else. -/
def attachStdoutStep (openBrowser started : Bool) (chunk : String) :
    Bool × List SupEvent :=
  let fires := !started && isReadyChunkAttach chunk
  (started || isReadyChunkAttach chunk,
   if fires then
     SupEvent.enterRunning ::
       (if openBrowser then [SupEvent.openedBrowser] else [])
   else [])

/-- Folds a stdout step function over the observed chunks, accumulating
the emitted events. -/
def processStdout (step : Bool → String → Bool × List SupEvent)
    (started : Bool) : List String → Bool × List SupEvent
  | [] => (started, [])
  | c :: rest =>
    let r := step started c
    let r2 := processStdout step r.1 rest
    (r2.1, r.2 ++ r2.2)

/-- Diagnostic lines the supervisor prints on its exit paths. -/
inductive Diag where
  | wranglerExitCode (c : Int)
  | tipRunWranglerDirectly
  | apiExitCode (c : Int)
  | failedToStart
deriving DecidableEq, Repr

/-- The primary command's child `close` handler: diagnostics printed and
the supervisor's own exit code, as a function of the child's exit code
(`null` when the child was killed by a signal). -/
def primaryOnClose (code : Option Int) : List Diag × Int :=
  match code with
  | some c =>
    if c ≠ 0 then ([Diag.wranglerExitCode c, Diag.tipRunWranglerDirectly], c)
    else ([], c)
  | none => ([], 0)

/-- The attach command's child `close` handler. -/
def attachOnClose (code : Option Int) : List Diag × Int :=
  match code with
  | some c =>
    if c ≠ 0 then ([Diag.apiExitCode c], c)
    else ([], c)
  | none => ([], 0)

/-- Ways a supervisor run can end: a setup failure before the child is
spawned (missing or invalid manifest, synthesis failure), or the child
process closing with an optional exit code. -/
inductive SetupError where
  | manifestNotFound
  | manifestInvalid
  | synthesisFailure
deriving DecidableEq, Repr

inductive RunOutcome where
  | setupFailed (e : SetupError)
  | childClosed (code : Option Int)
deriving DecidableEq, Repr

/-- Diagnostics and exit code of a primary-command run. -/
def primaryRun : RunOutcome → List Diag × Int
  | RunOutcome.setupFailed _ => ([Diag.failedToStart], 1)
  | RunOutcome.childClosed code => primaryOnClose code

/-- Diagnostics and exit code of an attach-command run. -/
def attachRun : RunOutcome → List Diag × Int
  | RunOutcome.setupFailed _ => ([Diag.failedToStart], 1)
  | RunOutcome.childClosed code => attachOnClose code

/-! ## Supervisor lemmas and claims -/

lemma primaryStep_started (opts : SupervisorOptions) (st : Bool) (c : String) :
    (primaryStdoutStep opts st c).1 = (st || isReadyChunkPrimary c) := rfl

lemma attachStep_started (ob st : Bool) (c : String) :
    (attachStdoutStep ob st c).1 = (st || isReadyChunkAttach c) := rfl

lemma primaryStep_count (opts : SupervisorOptions) (st : Bool) (c : String) :
    ((primaryStdoutStep opts st c).2.count SupEvent.enterRunning)
      = if !st && isReadyChunkPrimary c then 1 else 0 := by
  obtain ⟨tui, verb, ob⟩ := opts
  cases st <;> cases hr : isReadyChunkPrimary c <;>
    cases tui <;> cases verb <;> cases ob <;>
    cases hn : isLocalflareNoise c <;>
    simp [primaryStdoutStep, hr, hn, List.count_cons, List.count_append]

lemma attachStep_count (ob st : Bool) (c : String) :
    ((attachStdoutStep ob st c).2.count SupEvent.enterRunning)
      = if !st && isReadyChunkAttach c then 1 else 0 := by
  cases st <;> cases hr : isReadyChunkAttach c <;> cases ob <;>
    simp [attachStdoutStep, hr, List.count_cons]

/-- Folding any stdout step whose latch and per-chunk `enterRunning`
count behave like the two handlers yields exactly one `enterRunning`
when some chunk matches and none otherwise. -/
lemma count_enter_processStdout
    (step : Bool → String → Bool × List SupEvent) (ready : String → Bool)
    (hst : ∀ st c, (step st c).1 = (st || ready c))
    (hcnt : ∀ st c, ((step st c).2.count SupEvent.enterRunning)
      = if !st && ready c then 1 else 0) :
    ∀ (chunks : List String) (st : Bool),
      ((processStdout step st chunks).2.count SupEvent.enterRunning)
        = if !st && chunks.any ready then 1 else 0 := by
  intro chunks
  induction chunks with
  | nil => intro st; simp [processStdout]
  | cons c rest ih =>
    intro st
    simp only [processStdout, List.count_append, hcnt, hst, ih, List.any_cons]
    rcases Bool.eq_false_or_eq_true st with hs | hs <;>
      rcases Bool.eq_false_or_eq_true (ready c) with hr | hr <;>
        rcases Bool.eq_false_or_eq_true (rest.any ready) with ha | ha <;>
          simp [hs, hr, ha]

/-- C7: in both supervisor entry points, the Running transition (success
output, TUI started flag, optional browser open) is emitted only by a
stdout chunk matching a recognized readiness phrase while not yet
started, and over any whole stdout stream it is emitted exactly once if
some chunk matches and never otherwise — in particular never before a
matching chunk and at most once. -/
theorem readiness_transition_latch :
    (∀ (opts : SupervisorOptions) (st : Bool) (c : String),
      SupEvent.enterRunning ∈ (primaryStdoutStep opts st c).2 →
        isReadyChunkPrimary c = true ∧ st = false) ∧
    (∀ (ob st : Bool) (c : String),
      SupEvent.enterRunning ∈ (attachStdoutStep ob st c).2 →
        isReadyChunkAttach c = true ∧ st = false) ∧
    (∀ (opts : SupervisorOptions) (chunks : List String),
      ((processStdout (primaryStdoutStep opts) false chunks).2.count
          SupEvent.enterRunning)
        = if chunks.any isReadyChunkPrimary then 1 else 0) ∧
    (∀ (ob : Bool) (chunks : List String),
      ((processStdout (attachStdoutStep ob) false chunks).2.count
          SupEvent.enterRunning)
        = if chunks.any isReadyChunkAttach then 1 else 0) := by
  refine ⟨?_, ?_, ?_, ?_⟩
  · intro opts st c hmem
    obtain ⟨tui, verb, ob⟩ := opts
    cases st <;> cases hr : isReadyChunkPrimary c <;>
      cases tui <;> cases verb <;> cases ob <;>
      cases hn : isLocalflareNoise c <;>
      simp_all [primaryStdoutStep, hr, hn]
  · intro ob st c hmem
    cases st <;> cases hr : isReadyChunkAttach c <;> cases ob <;>
      simp_all [attachStdoutStep, hr]
  · intro opts chunks
    simpa using count_enter_processStdout (primaryStdoutStep opts)
      isReadyChunkPrimary (primaryStep_started opts) (primaryStep_count opts)
      chunks false
  · intro ob chunks
    simpa using count_enter_processStdout (attachStdoutStep ob)
      isReadyChunkAttach (attachStep_started ob) (attachStep_count ob)
      chunks false

/-- C8 (amended): while started and without the TUI, a stdout chunk
matching the internal-noise patterns is suppressed from console output
regardless of verbose mode, and a chunk not matching them is written
through unchanged. -/
theorem running_console_noise_filter (verbose ob : Bool) (c : String) :
    (primaryStdoutStep
        { hasTui := false, verbose := verbose, openBrowser := ob }
        true c).2
      = if isLocalflareNoise c then [] else [SupEvent.wroteChunk c] := by
  simp [primaryStdoutStep]

/-- C8 counterexample: a binding-wiring diagnostic chunk observed while
Running with verbose mode requested is still suppressed (empty event
list), contradicting the claim that noise is shown under verbose. -/
theorem running_verbose_noise_suppressed_counterexample :
    (primaryStdoutStep
        { hasTui := false, verbose := true, openBrowser := false }
        true "env.USER_WORKER (Service)").2 = [] := by
  decide

/-- C6 (amended): a nonzero child exit makes the primary supervisor print
the exit code and a remediation hint and exit with that code, while the
attach supervisor prints only the exit code (no hint) and exits with that
code; any setup failure before the child spawns exits with code 1 in both
entry points. -/
theorem supervisor_exit_codes (c : Int) (hc : c ≠ 0) (e : SetupError) :
    primaryRun (RunOutcome.childClosed (some c))
      = ([Diag.wranglerExitCode c, Diag.tipRunWranglerDirectly], c) ∧
    attachRun (RunOutcome.childClosed (some c))
      = ([Diag.apiExitCode c], c) ∧
    primaryRun (RunOutcome.setupFailed e) = ([Diag.failedToStart], 1) ∧
    attachRun (RunOutcome.setupFailed e) = ([Diag.failedToStart], 1) := by
  simp [primaryRun, attachRun, primaryOnClose, attachOnClose, hc]

/-- C6 witness: child exit code 2 and a missing manifest. -/
theorem supervisor_exit_codes_witness :
    primaryRun (RunOutcome.childClosed (some 2))
      = ([Diag.wranglerExitCode 2, Diag.tipRunWranglerDirectly], 2) ∧
    attachRun (RunOutcome.childClosed (some 2))
      = ([Diag.apiExitCode 2], 2) ∧
    primaryRun (RunOutcome.setupFailed SetupError.manifestNotFound)
      = ([Diag.failedToStart], 1) ∧
    attachRun (RunOutcome.setupFailed SetupError.manifestNotFound)
      = ([Diag.failedToStart], 1) :=
  supervisor_exit_codes 2 (by decide) SetupError.manifestNotFound

/-- C6 counterexample: in attach mode a child exit with code 1 prints the
exit-code line but no remediation hint, refuting the claim that both
entry points print a hint. -/
theorem attach_no_remediation_hint_counterexample :
    (attachRun (RunOutcome.childClosed (some 1))).1 = [Diag.apiExitCode 1] ∧
    Diag.tipRunWranglerDirectly ∉
      (attachRun (RunOutcome.childClosed (some 1))).1 ∧
    (attachRun (RunOutcome.childClosed (some 1))).2 = 1 := by
  decide

/-- C9: a child terminated without an exit code (the close event reports
null, e.g. killed by a signal such as the supervisor's own SIGTERM) makes
both supervisors exit with code 0 and print no crash diagnostic. -/
theorem signal_termination_clean_exit :
    primaryRun (RunOutcome.childClosed none) = ([], 0) ∧
    attachRun (RunOutcome.childClosed none) = ([], 0) := by
  decide

end Localflare
